import Mathlib

/-!
Verification of the admission-control and protocol-dispatch core of the
most-popular-committer server.

The Go sources are shallowly embedded below:

* `grpcHandlerFunc`, `createServerMainHandler` (pkg/server/server.go) become a
  small handler tree with a routing semantics `routeRequest`.
* The `committerService` business handler (`MostActiveCommitter`,
  `collectContributors`) becomes a pure function over an oracle `GithubWorld`
  describing the outcome of the two downstream GitHub queries; the list of
  downstream calls actually issued is returned as an explicit trace.
* `NewServer`, `applyOpts` and the functional options (pkg/server,
  functional_options) become plain record updates.
* `Serve`, `createHTTPServer`, `createGRPCOptions`, `createDialOpts` and
  `createTLSConfig` become a step-by-step startup model over a `ServeEnv`
  oracle for the filesystem and external registrations, again with an explicit
  event trace.  Go panics (integer division by zero) are distinguished from
  returned errors.
* The token bucket lives in pkg/ratelimit/tokenbucket, which is not part of
  the sources at hand; it is modelled from the specification (see
  `NewTokenBucketRateLimiter` and `tryTake`).

Machine integers are modelled as `Int` with explicit truncated division and an
explicit `mod 2 ^ 64` where the source casts to `uint64`; token counts are
rationals, as the specification describes them as reals with fractional
accumulation.
-/

/-- Go `strings.Contains` on character lists: `goContainsList nd hs = true`
iff `nd` occurs contiguously inside `hs` (the empty list occurs anywhere). -/
def goContainsList (nd : List Char) : List Char → Bool
  | [] => nd.isEmpty
  | h :: t => List.isPrefixOf nd (h :: t) || goContainsList nd t

/-- Go `strings.Contains s sub`: substring containment on strings. -/
def goStringsContains (s sub : String) : Bool :=
  goContainsList sub.data s.data

/-- The media-type marker tested by `grpcHandlerFunc` in pkg/server/server.go. -/
def grpcContentType : String := "application/grpc"

/-- An inbound HTTP request, reduced to the two fields inspected by the
router: `r.ProtoMajor` and `r.Header.Get("Content-Type")`. -/
structure HttpRequest where
  protoMajor : Nat
  contentType : String

/-- The handler values assembled by the server: the gRPC server, the REST mux,
the dispatching handler returned by `grpcHandlerFunc`, and the third-party
`h2c.HandlerH2C` wrapper used in cleartext mode (pkg/server/server.go,
`createServerMainHandler`).  The h2c wrapper upgrades cleartext HTTP/2 and
always serves the request with its wrapped inner handler. -/
inductive HttpHandler where
  | grpcServer : HttpHandler
  | restMux : HttpHandler
  | grpcOrOther (grpcH otherH : HttpHandler) : HttpHandler
  | h2cWrapped (inner : HttpHandler) : HttpHandler
deriving DecidableEq

/-- The test of pkg/server/server.go `grpcHandlerFunc`:
`r.ProtoMajor == 2 && strings.Contains(r.Header.Get("Content-Type"), "application/grpc")`. -/
def isGrpcRequest (r : HttpRequest) : Bool :=
  r.protoMajor == 2 && goStringsContains r.contentType grpcContentType

/-- `grpcHandlerFunc` of pkg/server/server.go: builds the handler that
delegates to `grpcServer` on gRPC-shaped requests and to `otherHandler`
otherwise. -/
def grpcHandlerFunc (grpcH otherH : HttpHandler) : HttpHandler :=
  .grpcOrOther grpcH otherH

/-- `createServerMainHandler` of pkg/server/server.go: in secure mode the root
handler is `grpcHandlerFunc` itself; in cleartext mode it is the same handler
wrapped in `h2c.HandlerH2C`. -/
def createServerMainHandler (secure : Bool) (grpcH mux : HttpHandler) : HttpHandler :=
  if secure then grpcHandlerFunc grpcH mux
  else .h2cWrapped (grpcHandlerFunc grpcH mux)

/-- Dispatch semantics: which leaf handler ends up serving request `r`.
`grpcOrOther` applies the `isGrpcRequest` test; the h2c wrapper always serves
with its inner handler. -/
def routeRequest : HttpHandler → HttpRequest → HttpHandler
  | .grpcOrOther g o, r => if isGrpcRequest r then routeRequest g r else routeRequest o r
  | .h2cWrapped inner, r => routeRequest inner r
  | .grpcServer, _ => .grpcServer
  | .restMux, _ => .restMux

/-! ## The committer business handler (cmd/serve.go second unit / pkg/server) -/

/-- `maxTopRatedProjects` from the source. -/
def maxTopRatedProjects : Nat := 5

/-- `maxContributors` from the source. -/
def maxContributors : Nat := 10

/-- Go `uint64(n)` for an `int` value `n`: reduction modulo `2 ^ 64`. -/
def goUInt64 (n : Int) : Nat :=
  (n % ((2 : Int) ^ 64)).toNat

/-- A `github.Repository` as consumed by `collectContributors`: the source
unconditionally dereferences the pointers `*repo.Owner.Login` and
`*repo.Name`, so both are modelled as plain strings. -/
structure Repository where
  ownerLogin : String
  name : String
deriving DecidableEq

/-- A `github.Contributor`: `Login` is a nilable pointer, checked by the
source before dereferencing; `Contributions` is dereferenced unconditionally
and modelled as a plain machine integer. -/
structure Contributor where
  login : Option String
  contributions : Int
deriving DecidableEq

/-- A `github.RepositoriesSearchResult`. -/
structure RepositoriesSearchResult where
  repositories : List Repository
deriving DecidableEq

/-- A `pb.Committer` response entry. -/
structure Committer where
  name : String
  commits : Nat
deriving DecidableEq

/-- A `pb.CommitterRequest`. -/
structure CommitterRequest where
  language : String
deriving DecidableEq

/-- A `pb.CommitterResponse`. -/
structure CommitterResponse where
  language : String
  contributors : List Committer
deriving DecidableEq

/-- gRPC status codes used by the handler. -/
inductive StatusCode where
  | invalidArgument : StatusCode
  | internal : StatusCode
deriving DecidableEq

/-- A `status.Error(code, msg)` value. -/
structure GrpcStatus where
  code : StatusCode
  message : String
deriving DecidableEq

/-- One downstream GitHub query issued by the handler. -/
inductive DownstreamCall where
  | searchRepositories (query : String) : DownstreamCall
  | listContributors (owner repoName : String) : DownstreamCall
deriving DecidableEq

/-- The oracle for the two collaborator interfaces `RepositoryGetter` and
`ContributorsGetter`: what each downstream query would return. -/
structure GithubWorld where
  searchResult : String → Except String RepositoriesSearchResult
  contributorsResult : String → String → Except String (List Contributor)

/-- The inner loop of `collectContributors`: appends one `pb.Committer` per
contributor, skipping (`continue`) contributors whose `Login` is nil. -/
def appendCommitters : List Contributor → List Committer → List Committer
  | [], acc => acc
  | c :: rest, acc =>
    match c.login with
    | none => appendCommitters rest acc
    | some l => appendCommitters rest (acc ++ [⟨l, goUInt64 c.contributions⟩])

/-- The outer loop of `collectContributors`: one `ListContributors` call per
repository, aborting with `codes.Internal` on the first failure.  The second
component is the trace of downstream calls issued so far. -/
def gatherContributors (w : GithubWorld) :
    List Repository → List Committer → List DownstreamCall →
    Except GrpcStatus (List Committer) × List DownstreamCall
  | [], acc, tr => (.ok acc, tr)
  | repo :: rest, acc, tr =>
    let tr2 := tr ++ [.listContributors repo.ownerLogin repo.name]
    match w.contributorsResult repo.ownerLogin repo.name with
    | .error _ => (.error ⟨.internal, ("Failed at finding contributors")⟩, tr2)
    | .ok cs => gatherContributors w rest (appendCommitters cs acc) tr2

/-- The comparison the source sorts by: `sort.Slice` with less-function
`Commits i > Commits j`, i.e. a descending order by commit count. -/
def committerGE (a b : Committer) : Prop := b.commits ≤ a.commits

instance : DecidableRel committerGE := fun a b => Nat.decLe b.commits a.commits

instance : IsTotal Committer committerGE := ⟨fun a b => le_total b.commits a.commits⟩

instance : IsTrans Committer committerGE := ⟨fun _ _ _ h1 h2 => le_trans h2 h1⟩

/-- `collectContributors` of cmd/serve.go (second unit): gather, sort by
commit count descending, and truncate to `maxContributors` only when the list
is longer than that. -/
def collectContributors (w : GithubWorld) (repos : List Repository) (language : String)
    (tr : List DownstreamCall) :
    Except GrpcStatus CommitterResponse × List DownstreamCall :=
  match gatherContributors w repos [] tr with
  | (.error e, tr2) => (.error e, tr2)
  | (.ok committers, tr2) =>
    let sorted := List.insertionSort committerGE committers
    let final := if maxContributors < sorted.length then sorted.take maxContributors else sorted
    (.ok ⟨language, final⟩, tr2)

/-- `MostActiveCommitter` of the committer service: validate the language,
search repositories sorted by stars, then collect contributors.  The second
component is the full trace of downstream calls issued. -/
def MostActiveCommitter (w : GithubWorld) (req : CommitterRequest) :
    Except GrpcStatus CommitterResponse × List DownstreamCall :=
  if req.language = "" then
    (.error ⟨.invalidArgument, ("Language needs to be provided")⟩, [])
  else
    let query := "language:" ++ req.language
    match w.searchResult query with
    | .error _ => (.error ⟨.internal, ("Failed at finding projects")⟩, [.searchRepositories query])
    | .ok rsr => collectContributors w rsr.repositories req.language [.searchRepositories query]

/-! ## Server construction and functional options (pkg/server) -/

/-- `serverDefaultName` from pkg/server/server.go. -/
def serverDefaultName : String := "most-popular-committer"

/-- A non-nil `net.Listener` handle; the only observation the startup path
makes of it is `Addr().String()`. -/
structure Listener where
  addr : String
deriving DecidableEq

/-- An opaque `zap.Logger` handle. -/
structure Logger where
  id : Nat
deriving DecidableEq

/-- The process-global logger `zap.L()`. -/
def zapGlobalLogger : Logger := ⟨0⟩

/-- `SecureConfig` of pkg/server/server.go. -/
structure SecureConfig where
  secure : Bool
  certFile : String
  keyFile : String
deriving DecidableEq

/-- `Server` of pkg/server/server.go. -/
structure Server where
  listener : Listener
  serverName : String
  logger : Logger
  secureCfg : SecureConfig
  capacity : Int
  rate : Int
deriving DecidableEq

/-- A functional `Option` of pkg/server: a Go function value, which may be
nil (`none`). -/
def ServerOption : Type := Option (Server → Server)

/-- `WithServerName` of pkg/server. -/
def WithServerName (n : String) : ServerOption :=
  some fun s => { s with serverName := n }

/-- `WithLogger` of pkg/server. -/
def WithLogger (l : Logger) : ServerOption :=
  some fun s => { s with logger := l }

/-- `WithCertFile` of pkg/server. -/
def WithCertFile (c : String) : ServerOption :=
  some fun s => { s with secureCfg := { s.secureCfg with certFile := c } }

/-- `WithKeyFile` of pkg/server. -/
def WithKeyFile (k : String) : ServerOption :=
  some fun s => { s with secureCfg := { s.secureCfg with keyFile := k } }

/-- `WithSecure` of pkg/server. -/
def WithSecure (b : Bool) : ServerOption :=
  some fun s => { s with secureCfg := { s.secureCfg with secure := b } }

/-- `WithCapacity` of pkg/server. -/
def WithCapacity (c : Int) : ServerOption :=
  some fun s => { s with capacity := c }

/-- `WithRate` of pkg/server. -/
def WithRate (r : Int) : ServerOption :=
  some fun s => { s with rate := r }

/-- `applyOpts` of pkg/server: applies each option in order, skipping nil
entries. -/
def applyOpts (s : Server) : List ServerOption → Server
  | [] => s
  | none :: rest => applyOpts s rest
  | some o :: rest => applyOpts (o s) rest

/-- `NewServer` of pkg/server/server.go: fails exactly on a nil listener;
otherwise builds the server with the default name, the global logger and
zero-valued secure config, rate and capacity, then applies the options. -/
def NewServer (l : Option Listener) (opts : List ServerOption) : Except String Server :=
  match l with
  | none => .error ("missing listener")
  | some lst =>
    .ok (applyOpts
      { listener := lst
        serverName := serverDefaultName
        logger := zapGlobalLogger
        secureCfg := ⟨false, "", ""⟩
        capacity := 0
        rate := 0 } opts)

/-! ## The token bucket (pkg/ratelimit/tokenbucket, modelled from the spec) -/

/-- Modelled from the spec: the `TokenBucket` state of the
pkg/ratelimit/tokenbucket package, which is not among the sources at hand.
`capacity` is the maximum credit, `tokens` the current credit (a real number
in `[0, capacity]`, here a rational), `refillInterval` the time to regenerate
one credit, `lastRefill` the timestamp of the last recalculation. -/
structure TokenBucket where
  capacity : ℚ
  tokens : ℚ
  refillInterval : ℚ
  lastRefill : ℚ
deriving DecidableEq

/-- Modelled from the spec: `NewTokenBucketRateLimiter` — the constructor of
pkg/ratelimit/tokenbucket, not among the sources at hand.  Per the spec it
returns a bucket seeded with `initialTokens` clamped to `[0, capacity]`;
`refillInterval` and `capacity` are required positive by the spec (a caller
obligation).  The creation instant is taken as time `0`. -/
def NewTokenBucketRateLimiter (refillInterval capacity initialTokens : ℚ) : TokenBucket :=
  { capacity := capacity
    tokens := max 0 (min capacity initialTokens)
    refillInterval := refillInterval
    lastRefill := 0 }

/-- Modelled from the spec: `TryTake` of pkg/ratelimit/tokenbucket, not among
the sources at hand.  Refill lazily from the elapsed wall-clock time (capped
at `capacity`), update `lastRefill`, then either debit `cost` and succeed, or
fail reporting the wait `(cost - tokens) * refillInterval`. -/
def tryTake (b : TokenBucket) (now cost : ℚ) : TokenBucket × Bool × ℚ :=
  let refilled := min b.capacity (b.tokens + (now - b.lastRefill) / b.refillInterval)
  if cost ≤ refilled then
    ({ b with tokens := refilled - cost, lastRefill := now }, true, 0)
  else
    ({ b with tokens := refilled, lastRefill := now }, false, (cost - refilled) * b.refillInterval)

/-- A sequence of `TryTake` calls: each entry is the elapsed time since the
previous call paired with the requested cost. -/
def runTryTakes (b : TokenBucket) : List (ℚ × ℚ) → TokenBucket
  | [] => b
  | (elapsed, cost) :: rest => runTryTakes (tryTake b (b.lastRefill + elapsed) cost).1 rest

/-- The bucket bounds invariant of the spec: `0 ≤ tokens ≤ capacity`. -/
def bucketInv (b : TokenBucket) : Prop :=
  0 ≤ b.tokens ∧ b.tokens ≤ b.capacity

/-! ## Server startup (pkg/server/server.go `Serve` and helpers) -/

/-- An `x509.CertPool` handle. -/
structure CertPool where
  id : Nat
deriving DecidableEq

/-- A parsed `tls.Certificate` key pair. -/
structure KeyPair where
  id : Nat
deriving DecidableEq

/-- The `tls.Config` built by `createTLSConfig`: the loaded key pair with
`NextProtos = ["h2"]`. -/
structure TLSConfig where
  keyPair : KeyPair
deriving DecidableEq

/-- A gRPC server option assembled by `createGRPCOptions`: the unary
interceptor chain carrying the rate limiter and its maximum wait (in
nanoseconds), or transport credentials from a certificate pool. -/
inductive GrpcServerOption where
  | unaryInterceptorChain (limiter : TokenBucket) (maxWaitNs : ℚ) : GrpcServerOption
  | creds (pool : CertPool) : GrpcServerOption
deriving DecidableEq

/-- A gRPC dial option built by `createDialOpts`. -/
inductive GrpcDialOption where
  | transportCredentials (pool : CertPool) (serverOverrideName : String) : GrpcDialOption
  | insecure : GrpcDialOption
deriving DecidableEq

/-- The outcome of a Go call: a value, a returned error, or a runtime panic
(the two are distinct: a panic is not returned to the caller). -/
inductive GoResult (α : Type) where
  | ok (a : α) : GoResult α
  | goError (msg : String) : GoResult α
  | runtimeFault (msg : String) : GoResult α
deriving DecidableEq

/-- Whether a `GoResult` is a normally returned value. -/
def GoResult.isOk {α : Type} : GoResult α → Bool
  | .ok _ => true
  | _ => false

/-- Whether a `GoResult` is a returned (non-panic) error. -/
def GoResult.isGoError {α : Type} : GoResult α → Bool
  | .goError _ => true
  | _ => false

/-- Observable startup events of `Serve`. -/
inductive ServeEvent where
  | readCertPool (certFile : String) : ServeEvent
  | loadKeyPair (certFile keyFile : String) : ServeEvent
  | acceptLoop (tls : Bool) : ServeEvent
deriving DecidableEq

/-- The environment oracle for startup: outcomes of the jaeger tracer setup,
of `createPool` (reading a certificate file into an `x509.CertPool`), of
`tls.LoadX509KeyPair`, and of the gRPC gateway registration. -/
structure ServeEnv where
  tracerResult : Except String Unit
  poolResult : String → Except String CertPool
  keyPairResult : String → String → Except String KeyPair
  gatewayResult : Except String Unit

/-- `time.Second` in nanoseconds. -/
def timeSecondNs : Int := 1000000000

/-- `time.Microsecond` in nanoseconds: the fixed maximum admission wait. -/
def timeMicrosecondNs : Int := 1000

/-- `createGRPCOptions` of pkg/server/server.go.  The division
`time.Second / time.Duration(ratePerSecond)` is Go int64 division: it panics
when `ratePerSecond` is zero and truncates toward zero otherwise.  The rate
limiter is constructed with capacity `capacity` and one initial token; in
secure mode the certificate pool is read and client TLS credentials appended.
No validation of `ratePerSecond` or `capacity` takes place. -/
def createGRPCOptions (env : ServeEnv) (s : SecureConfig)
    (ratePerSecond capacity : Int) :
    GoResult (List GrpcServerOption) × List ServeEvent :=
  if ratePerSecond = 0 then
    (.runtimeFault ("runtime error: integer divide by zero"), [])
  else
    let refillNs : Int := Int.tdiv timeSecondNs ratePerSecond
    let limiter := NewTokenBucketRateLimiter (refillNs : ℚ) (capacity : ℚ) 1
    let base : List GrpcServerOption :=
      [.unaryInterceptorChain limiter (timeMicrosecondNs : ℚ)]
    if s.secure then
      match env.poolResult s.certFile with
      | .error e => (.goError e, [.readCertPool s.certFile])
      | .ok pool => (.ok (base ++ [.creds pool]), [.readCertPool s.certFile])
    else
      (.ok base, [])

/-- `createDialOpts` of pkg/server/server.go: in secure mode, read the
certificate pool again for the gateway client credentials; otherwise dial
insecurely. -/
def createDialOpts (env : ServeEnv) (serverOverrideName : String) (secure : Bool)
    (certFile : String) : GoResult (List GrpcDialOption) × List ServeEvent :=
  if secure then
    match env.poolResult certFile with
    | .error e => (.goError e, [.readCertPool certFile])
    | .ok pool => (.ok [.transportCredentials pool serverOverrideName], [.readCertPool certFile])
  else
    (.ok [.insecure], [])

/-- `createTLSConfig` of pkg/server/server.go: in secure mode, load and parse
the certificate/key pair once via `tls.LoadX509KeyPair`; a failure is
returned as an error.  Cleartext mode yields no TLS config. -/
def createTLSConfig (env : ServeEnv) (secure : Bool) (certFile keyFile : String) :
    GoResult (Option TLSConfig) × List ServeEvent :=
  if secure then
    match env.keyPairResult certFile keyFile with
    | .error e =>
      (.goError ("unable to create x509 key pair certificate: " ++ e),
        [.loadKeyPair certFile keyFile])
    | .ok kp => (.ok (some ⟨kp⟩), [.loadKeyPair certFile keyFile])
  else
    (.ok none, [])

/-- The `http.Server` assembled by `createHTTPServer`. -/
structure HTTPServerModel where
  addr : String
  rootHandler : HttpHandler
  tlsConfig : Option TLSConfig
  serverOpts : List GrpcServerOption

/-- `createHTTPServer` of pkg/server/server.go, in source order: gRPC options
(rate limiter, credentials), dial options, gateway mux registration, root
handler assembly, TLS config.  The first failure aborts with that error. -/
def createHTTPServer (env : ServeEnv) (s : Server) :
    GoResult HTTPServerModel × List ServeEvent :=
  let addr := s.listener.addr
  match createGRPCOptions env s.secureCfg s.rate s.capacity with
  | (.goError e, tr) => (.goError e, tr)
  | (.runtimeFault e, tr) => (.runtimeFault e, tr)
  | (.ok serverOpts, tr1) =>
    match createDialOpts env s.serverName s.secureCfg.secure s.secureCfg.certFile with
    | (.goError e, tr2) => (.goError e, tr1 ++ tr2)
    | (.runtimeFault e, tr2) => (.runtimeFault e, tr1 ++ tr2)
    | (.ok _dialOpts, tr2) =>
      match env.gatewayResult with
      | .error e => (.goError ("unable to register gRPC gateway: " ++ e), tr1 ++ tr2)
      | .ok _ =>
        let rootHandler := createServerMainHandler s.secureCfg.secure .grpcServer .restMux
        match createTLSConfig env s.secureCfg.secure s.secureCfg.certFile s.secureCfg.keyFile with
        | (.goError e, tr3) => (.goError e, tr1 ++ tr2 ++ tr3)
        | (.runtimeFault e, tr3) => (.runtimeFault e, tr1 ++ tr2 ++ tr3)
        | (.ok tlsCfg, tr3) =>
          (.ok ⟨addr, rootHandler, tlsCfg, serverOpts⟩, tr1 ++ tr2 ++ tr3)

/-- The running state reached by a successful `Serve`: the assembled server
with its accept loop active, in TLS mode iff configured secure. -/
structure ServingState where
  server : HTTPServerModel
  tlsMode : Bool

/-- `Serve` of pkg/server/server.go: set up the tracer, build the HTTP
server, then enter the accept loop — `ServeTLS` when secure (certificates
already initialized), plain `Serve` otherwise.  Every failure before the
accept loop is returned without ever accepting a request. -/
def goServe (env : ServeEnv) (s : Server) :
    GoResult ServingState × List ServeEvent :=
  match env.tracerResult with
  | .error e => (.goError ("initializing global tracer: " ++ e), [])
  | .ok _ =>
    match createHTTPServer env s with
    | (.goError e, tr) => (.goError e, tr)
    | (.runtimeFault e, tr) => (.runtimeFault e, tr)
    | (.ok srv, tr) =>
      (.ok ⟨srv, s.secureCfg.secure⟩, tr ++ [.acceptLoop s.secureCfg.secure])

/-! ## Sample inputs used by witnesses -/

/-- A sample oracle: one repository, one named and one anonymous contributor. -/
def sampleWorld : GithubWorld :=
  { searchResult := fun _ => .ok ⟨[⟨"octo", "rocket"⟩]⟩
    contributorsResult := fun _ _ => .ok [⟨some "alice", 3⟩, ⟨none, 5⟩] }

/-- A sample oracle whose repository search fails with one message. -/
def failSearchWorld1 : GithubWorld :=
  { searchResult := fun _ => .error ("boom one")
    contributorsResult := fun _ _ => .ok [] }

/-- A sample oracle whose repository search fails with another message. -/
def failSearchWorld2 : GithubWorld :=
  { searchResult := fun _ => .error ("boom two")
    contributorsResult := fun _ _ => .ok [] }

/-! ## C1, C7: protocol routing -/

/-- C1: the root dispatcher sends a request to the gRPC server exactly when
its transport major version is 2 and its Content-Type contains
"application/grpc"; every other request goes to the REST mux. -/
theorem grpcHandlerFunc_routes_rpc_iff (r : HttpRequest) :
    (routeRequest (grpcHandlerFunc .grpcServer .restMux) r = .grpcServer ↔
      (r.protoMajor = 2 ∧ goStringsContains r.contentType grpcContentType = true)) ∧
    (routeRequest (grpcHandlerFunc .grpcServer .restMux) r = .restMux ↔
      ¬(r.protoMajor = 2 ∧ goStringsContains r.contentType grpcContentType = true)) := by
  have hroute : routeRequest (grpcHandlerFunc .grpcServer .restMux) r
      = if isGrpcRequest r then HttpHandler.grpcServer else HttpHandler.restMux := rfl
  have hcond : isGrpcRequest r = true ↔
      (r.protoMajor = 2 ∧ goStringsContains r.contentType grpcContentType = true) := by
    simp [isGrpcRequest, Bool.and_eq_true, beq_iff_eq]
  by_cases hb : isGrpcRequest r = true
  · rw [hroute, if_pos hb]
    constructor
    · simp [hcond.mp hb]
    · simp [hcond.mp hb]
  · rw [hroute, if_neg hb]
    have hneg : ¬(r.protoMajor = 2 ∧ goStringsContains r.contentType grpcContentType = true) :=
      fun hc => hb (hcond.mpr hc)
    constructor
    · simp [hneg]
    · simp [hneg]

/-- C7: the root handler assembled for TLS mode and the one assembled for
cleartext mode dispatch every request to the same leaf handler. -/
theorem mainHandler_tls_plaintext_agree (r : HttpRequest) :
    routeRequest (createServerMainHandler true .grpcServer .restMux) r =
    routeRequest (createServerMainHandler false .grpcServer .restMux) r := rfl

/-! ## C3: input validation -/

/-- C3: an empty language yields the invalid-argument status with no response
and no downstream call, whatever the downstream oracle would have answered. -/
theorem mostActiveCommitter_empty_language (w : GithubWorld) (req : CommitterRequest)
    (h : req.language = "") :
    MostActiveCommitter w req =
      (.error ⟨.invalidArgument, ("Language needs to be provided")⟩, []) := by
  simp [MostActiveCommitter, h]

/-- Witness for C3 at a concrete empty request. -/
theorem mostActiveCommitter_empty_language_witness :
    MostActiveCommitter sampleWorld ⟨""⟩ =
      (.error ⟨.invalidArgument, ("Language needs to be provided")⟩, []) :=
  mostActiveCommitter_empty_language sampleWorld ⟨""⟩ rfl

/-! ## C4: sortedness and truncation of successful responses -/

/-- The truncation step keeps a list sorted and bounded by `maxContributors`. -/
theorem collectContributors_ok_shape (w : GithubWorld) (repos : List Repository)
    (language : String) (tr : List DownstreamCall) (resp : CommitterResponse)
    (tr2 : List DownstreamCall)
    (h : collectContributors w repos language tr = (.ok resp, tr2)) :
    List.Sorted committerGE resp.contributors ∧
    resp.contributors.length ≤ maxContributors := by
  unfold collectContributors at h
  split at h
  · simp at h
  · rename_i committers tr3 heq
    simp only [Prod.mk.injEq, Except.ok.injEq] at h
    obtain ⟨hresp, _⟩ := h
    subst hresp
    have hs : List.Sorted committerGE (List.insertionSort committerGE committers) :=
      List.sorted_insertionSort committerGE committers
    constructor
    · dsimp only
      split
      · exact List.Pairwise.sublist (List.take_sublist _ _) hs
      · exact hs
    · dsimp only
      split
      · exact List.length_take_le _ _
      · next hlen => exact Nat.le_of_not_lt hlen

/-- C4: every successful response, whatever the number of contributors
gathered, is sorted by commit count descending and holds at most
`maxContributors` entries. -/
theorem mostActiveCommitter_sorted_capped (w : GithubWorld) (req : CommitterRequest)
    (resp : CommitterResponse) (tr : List DownstreamCall)
    (h : MostActiveCommitter w req = (.ok resp, tr)) :
    List.Sorted committerGE resp.contributors ∧
    resp.contributors.length ≤ maxContributors := by
  unfold MostActiveCommitter at h
  split at h
  · simp at h
  · dsimp only at h
    split at h
    · simp at h
    · exact collectContributors_ok_shape _ _ _ _ _ _ h

/-- Witness for C4 on a concrete run gathering a single contributor (fewer
than the maximum). -/
theorem mostActiveCommitter_sorted_capped_witness :
    List.Sorted committerGE ([⟨"alice", 3⟩] : List Committer) ∧
    ([(⟨"alice", 3⟩ : Committer)] : List Committer).length ≤ maxContributors :=
  mostActiveCommitter_sorted_capped sampleWorld ⟨"go"⟩ ⟨"go", [⟨"alice", 3⟩]⟩
    [.searchRepositories ("language:go"), .listContributors ("octo") ("rocket")] (by rfl)

/-! ## C8: upstream failures are propagated without their content -/

/-- Two downstream outcomes have the same shape when they are both successes
with the same value, or both failures (with arbitrary, possibly different,
error content). -/
def exceptShapeEq {ε α : Type} : Except ε α → Except ε α → Prop
  | .ok a, .ok b => a = b
  | .error _, .error _ => True
  | _, _ => False

/-- Two oracles agree up to the content of downstream errors. -/
def sameFailureShape (w1 w2 : GithubWorld) : Prop :=
  (∀ q, exceptShapeEq (w1.searchResult q) (w2.searchResult q)) ∧
  (∀ o n, exceptShapeEq (w1.contributorsResult o n) (w2.contributorsResult o n))

/-- The gathering loop is unaffected by the content of downstream errors. -/
theorem gatherContributors_shape (w1 w2 : GithubWorld)
    (hc : ∀ o n, exceptShapeEq (w1.contributorsResult o n) (w2.contributorsResult o n))
    (repos : List Repository) :
    ∀ acc tr, gatherContributors w1 repos acc tr = gatherContributors w2 repos acc tr := by
  induction repos with
  | nil => intro acc tr; rfl
  | cons repo rest ih =>
    intro acc tr
    have h := hc repo.ownerLogin repo.name
    unfold gatherContributors
    cases h1 : w1.contributorsResult repo.ownerLogin repo.name with
    | error e1 =>
      cases h2 : w2.contributorsResult repo.ownerLogin repo.name with
      | error e2 => rfl
      | ok cs2 => rw [h1, h2] at h; exact absurd h (by simp [exceptShapeEq])
    | ok cs1 =>
      cases h2 : w2.contributorsResult repo.ownerLogin repo.name with
      | error e2 => rw [h1, h2] at h; exact absurd h (by simp [exceptShapeEq])
      | ok cs2 =>
        rw [h1, h2] at h
        have hcs : cs1 = cs2 := h
        subst hcs
        exact ih _ _

/-- A failing gathering loop always reports the fixed internal status. -/
theorem gatherContributors_error_msg (w : GithubWorld) (repos : List Repository) :
    ∀ acc tr st tr2, gatherContributors w repos acc tr = (.error st, tr2) →
      st = ⟨.internal, ("Failed at finding contributors")⟩ := by
  induction repos with
  | nil => intro acc tr st tr2 h; simp [gatherContributors] at h
  | cons repo rest ih =>
    intro acc tr st tr2 h
    unfold gatherContributors at h
    dsimp only at h
    split at h
    · simp only [Prod.mk.injEq, Except.error.injEq] at h
      exact h.1.symm
    · exact ih _ _ _ _ h

/-- A failing handler run with a non-empty language reports one of the two
fixed internal messages. -/
theorem mostActiveCommitter_upstream_msg (w : GithubWorld) (req : CommitterRequest)
    (st : GrpcStatus) (tr : List DownstreamCall) (hl : req.language ≠ "")
    (h : MostActiveCommitter w req = (.error st, tr)) :
    st.code = .internal ∧
    (st.message = ("Failed at finding projects") ∨
     st.message = ("Failed at finding contributors")) := by
  unfold MostActiveCommitter at h
  rw [if_neg hl] at h
  dsimp only at h
  split at h
  · simp only [Prod.mk.injEq, Except.error.injEq] at h
    rw [← h.1]
    exact ⟨rfl, Or.inl rfl⟩
  · unfold collectContributors at h
    split at h
    · rename_i st0 tr0 heq
      simp only [Prod.mk.injEq, Except.error.injEq] at h
      have := gatherContributors_error_msg w _ _ _ _ _ heq
      rw [← h.1, this]
      exact ⟨rfl, Or.inr rfl⟩
    · simp at h

/-- `MostActiveCommitter` is unaffected by the content of downstream errors. -/
theorem mostActiveCommitter_shape (w1 w2 : GithubWorld) (req : CommitterRequest)
    (hs : sameFailureShape w1 w2) :
    MostActiveCommitter w1 req = MostActiveCommitter w2 req := by
  obtain ⟨hsearch, hcontrib⟩ := hs
  unfold MostActiveCommitter
  by_cases hl : req.language = ""
  · simp [hl]
  · rw [if_neg hl, if_neg hl]
    dsimp only
    have h := hsearch ("language:" ++ req.language)
    cases h1 : w1.searchResult ("language:" ++ req.language) with
    | error e1 =>
      cases h2 : w2.searchResult ("language:" ++ req.language) with
      | error e2 => rfl
      | ok rsr2 => rw [h1, h2] at h; exact absurd h (by simp [exceptShapeEq])
    | ok rsr1 =>
      cases h2 : w2.searchResult ("language:" ++ req.language) with
      | error e2 => rw [h1, h2] at h; exact absurd h (by simp [exceptShapeEq])
      | ok rsr2 =>
        rw [h1, h2] at h
        have hr : rsr1 = rsr2 := h
        subst hr
        show collectContributors w1 rsr1.repositories req.language
            [DownstreamCall.searchRepositories ("language:" ++ req.language)] =
          collectContributors w2 rsr1.repositories req.language
            [DownstreamCall.searchRepositories ("language:" ++ req.language)]
        unfold collectContributors
        rw [gatherContributors_shape w1 w2 hcontrib _ _ _]

/-- C8: the handler's outcome does not depend on the content of upstream
failures, and every upstream failure surfaces as the internal status with one
of the two fixed messages (never the downstream error text). -/
theorem upstream_failures_not_leaked (w1 w2 : GithubWorld) (req : CommitterRequest)
    (hs : sameFailureShape w1 w2) :
    MostActiveCommitter w1 req = MostActiveCommitter w2 req ∧
    (∀ st tr, req.language ≠ "" → MostActiveCommitter w1 req = (.error st, tr) →
      st.code = .internal ∧
      (st.message = ("Failed at finding projects") ∨
       st.message = ("Failed at finding contributors"))) := by
  refine ⟨mostActiveCommitter_shape w1 w2 req hs, ?_⟩
  intro st tr hl h
  exact mostActiveCommitter_upstream_msg w1 req st tr hl h

/-- Witness for C8: two distinct search failures produce identical outcomes. -/
theorem upstream_failures_not_leaked_witness :
    MostActiveCommitter failSearchWorld1 ⟨"go"⟩ =
      MostActiveCommitter failSearchWorld2 ⟨"go"⟩ ∧
    GrpcStatus.code ⟨.internal, ("Failed at finding projects")⟩ = .internal :=
  ⟨(upstream_failures_not_leaked failSearchWorld1 failSearchWorld2 ⟨"go"⟩
      ⟨fun _ => trivial, fun _ _ => rfl⟩).1,
   ((upstream_failures_not_leaked failSearchWorld1 failSearchWorld2 ⟨"go"⟩
      ⟨fun _ => trivial, fun _ _ => rfl⟩).2
      ⟨.internal, ("Failed at finding projects")⟩
      [.searchRepositories ("language:go")] (by simp) (by rfl)).1⟩

/-! ## C10: response entries come from contributors with a present login -/

/-- Every entry produced by the inner loop is either carried over from the
accumulator or stems from a contributor whose login is present. -/
theorem mem_appendCommitters (cs : List Contributor) (acc : List Committer)
    (e : Committer) (h : e ∈ appendCommitters cs acc) :
    e ∈ acc ∨ ∃ c ∈ cs, c.login = some e.name ∧ e.commits = goUInt64 c.contributions := by
  induction cs generalizing acc with
  | nil => exact Or.inl h
  | cons c rest ih =>
    unfold appendCommitters at h
    cases hc : c.login with
    | none =>
      rw [hc] at h
      rcases ih _ h with hacc | ⟨c2, hc2, hl, hm⟩
      · exact Or.inl hacc
      · exact Or.inr ⟨c2, List.mem_cons_of_mem c hc2, hl, hm⟩
    | some l =>
      rw [hc] at h
      rcases ih _ h with hacc | ⟨c2, hc2, hl, hm⟩
      · rcases List.mem_append.mp hacc with hacc2 | hsing
        · exact Or.inl hacc2
        · refine Or.inr ⟨c, List.mem_cons_self c rest, ?_, ?_⟩
          · rw [hc, List.mem_singleton.mp hsing]
          · rw [List.mem_singleton.mp hsing]
      · exact Or.inr ⟨c2, List.mem_cons_of_mem c hc2, hl, hm⟩

/-- Every entry produced by the gathering loop is either carried over from
the accumulator or stems from a present-login contributor of one of the
listed repositories. -/
theorem gatherContributors_ok_mem (w : GithubWorld) (repos : List Repository) :
    ∀ acc tr res tr2, gatherContributors w repos acc tr = (.ok res, tr2) →
      ∀ e ∈ res, e ∈ acc ∨
        ∃ repo ∈ repos, ∃ cs, w.contributorsResult repo.ownerLogin repo.name = .ok cs ∧
          ∃ c ∈ cs, c.login = some e.name ∧ e.commits = goUInt64 c.contributions := by
  induction repos with
  | nil =>
    intro acc tr res tr2 h e he
    unfold gatherContributors at h
    simp only [Prod.mk.injEq, Except.ok.injEq] at h
    rw [h.1]
    exact Or.inl he
  | cons repo rest ih =>
    intro acc tr res tr2 h e he
    unfold gatherContributors at h
    dsimp only at h
    split at h
    · simp at h
    · rename_i cs hcs
      rcases ih _ _ _ _ h e he with hacc | ⟨repo2, hrepo2, cs2, hcs2, hex⟩
      · rcases mem_appendCommitters cs acc e hacc with hacc2 | ⟨c, hc, hl, hm⟩
        · exact Or.inl hacc2
        · exact Or.inr ⟨repo, List.mem_cons_self repo rest, cs, hcs, c, hc, hl, hm⟩
      · exact Or.inr ⟨repo2, List.mem_cons_of_mem repo hrepo2, cs2, hcs2, hex⟩

/-- C10: every contributor entry of a successful response carries the name of
some downstream contributor whose login was present; nil-login contributors
never surface. -/
theorem response_names_from_logins (w : GithubWorld) (req : CommitterRequest)
    (resp : CommitterResponse) (tr : List DownstreamCall)
    (h : MostActiveCommitter w req = (.ok resp, tr)) :
    ∀ e ∈ resp.contributors,
      ∃ rsr, w.searchResult ("language:" ++ req.language) = .ok rsr ∧
        ∃ repo ∈ rsr.repositories, ∃ cs,
          w.contributorsResult repo.ownerLogin repo.name = .ok cs ∧
          ∃ c ∈ cs, c.login = some e.name ∧ e.commits = goUInt64 c.contributions := by
  intro e he
  unfold MostActiveCommitter at h
  split at h
  · simp at h
  · dsimp only at h
    split at h
    · simp at h
    · rename_i rsr hsearch
      refine ⟨rsr, hsearch, ?_⟩
      unfold collectContributors at h
      split at h
      · simp at h
      · rename_i committers tr3 hgather
        simp only [Prod.mk.injEq, Except.ok.injEq] at h
        rw [← h.1] at he
        dsimp only at he
        have hmem : e ∈ committers := by
          have hsorted : e ∈ List.insertionSort committerGE committers := by
            rcases (by exact he :
                e ∈ (if maxContributors < (List.insertionSort committerGE committers).length
                  then List.take maxContributors (List.insertionSort committerGE committers)
                  else List.insertionSort committerGE committers)) with hin
            by_cases hlen : maxContributors < (List.insertionSort committerGE committers).length
            · rw [if_pos hlen] at hin
              exact List.take_subset _ _ hin
            · rw [if_neg hlen] at hin
              exact hin
          exact (List.perm_insertionSort committerGE committers).mem_iff.mp hsorted
        rcases gatherContributors_ok_mem w rsr.repositories _ _ _ _ hgather e hmem with
          habs | hfound
        · exact absurd habs (List.not_mem_nil e)
        · exact hfound

/-- Witness for C10: the sample run whose response entry "alice" stems from a
present login, while the nil-login contributor was skipped. -/
theorem response_names_from_logins_witness :
    ∃ rsr, sampleWorld.searchResult ("language:go") = .ok rsr ∧
      ∃ repo ∈ rsr.repositories, ∃ cs,
        sampleWorld.contributorsResult repo.ownerLogin repo.name = .ok cs ∧
        ∃ c ∈ cs, c.login = some (Committer.name ⟨"alice", 3⟩) ∧
          (Committer.commits ⟨"alice", 3⟩) = goUInt64 c.contributions :=
  response_names_from_logins sampleWorld ⟨"go"⟩ ⟨"go", [⟨"alice", 3⟩]⟩
    [.searchRepositories ("language:go"), .listContributors ("octo") ("rocket")]
    (by rfl) ⟨"alice", 3⟩ (List.mem_singleton.mpr rfl)

/-! ## C9: NewServer and nil options -/

/-- A list of nil options leaves the server untouched. -/
theorem applyOpts_all_none (s : Server) (opts : List ServerOption)
    (h : ∀ o ∈ opts, o = none) : applyOpts s opts = s := by
  induction opts with
  | nil => rfl
  | cons o rest ih =>
    have ho : o = none := h o (List.mem_cons_self o rest)
    subst ho
    exact ih fun o2 ho2 => h o2 (List.mem_cons_of_mem none ho2)

/-- C9: `NewServer` fails exactly on a nil listener; with any non-nil
listener it succeeds; with no effective option the server name is the
default; and nil options are skipped without effect. -/
theorem newServer_spec :
    (∀ opts, NewServer none opts = .error ("missing listener")) ∧
    (∀ l opts, ∃ srv, NewServer (some l) opts = .ok srv) ∧
    (∀ l opts, (∀ o ∈ opts, o = none) →
      NewServer (some l) opts = .ok
        { listener := l
          serverName := serverDefaultName
          logger := zapGlobalLogger
          secureCfg := ⟨false, "", ""⟩
          capacity := 0
          rate := 0 }) ∧
    (∀ s opts, applyOpts s (none :: opts) = applyOpts s opts) := by
  refine ⟨fun opts => rfl, fun l opts => ⟨_, rfl⟩, fun l opts h => ?_, fun s opts => rfl⟩
  unfold NewServer
  dsimp only
  rw [applyOpts_all_none _ opts h]

/-- Witness for C9: a concrete listener with one nil option yields the
default-named server. -/
theorem newServer_spec_witness :
    NewServer (some ⟨"127.0.0.1:9091"⟩) [none] = .ok
      { listener := ⟨"127.0.0.1:9091"⟩
        serverName := serverDefaultName
        logger := zapGlobalLogger
        secureCfg := ⟨false, "", ""⟩
        capacity := 0
        rate := 0 } :=
  newServer_spec.2.2.1 ⟨"127.0.0.1:9091"⟩ [none]
    fun _o ho => List.mem_singleton.mp ho

/-! ## C2: token bucket bounds -/

/-- `tryTake` keeps the capacity field. -/
theorem tryTake_capacity (b : TokenBucket) (now cost : ℚ) :
    ((tryTake b now cost).1).capacity = b.capacity := by
  unfold tryTake
  dsimp only
  split <;> rfl

/-- `tryTake` keeps the refill interval field. -/
theorem tryTake_refillInterval (b : TokenBucket) (now cost : ℚ) :
    ((tryTake b now cost).1).refillInterval = b.refillInterval := by
  unfold tryTake
  dsimp only
  split <;> rfl

/-- One `tryTake` step preserves the bucket bounds. -/
theorem tryTake_inv (b : TokenBucket) (now cost : ℚ)
    (hri : 0 < b.refillInterval) (hinv : bucketInv b)
    (hnow : b.lastRefill ≤ now) (hcost : 0 ≤ cost) :
    bucketInv (tryTake b now cost).1 := by
  obtain ⟨htok0, htokc⟩ := hinv
  have hlin : (0 : ℚ) ≤ (now - b.lastRefill) / b.refillInterval :=
    div_nonneg (by linarith) (le_of_lt hri)
  have hcap0 : (0 : ℚ) ≤ b.capacity := le_trans htok0 htokc
  have h0 : (0 : ℚ) ≤ min b.capacity (b.tokens + (now - b.lastRefill) / b.refillInterval) :=
    le_min hcap0 (by linarith)
  have hc : min b.capacity (b.tokens + (now - b.lastRefill) / b.refillInterval) ≤ b.capacity :=
    min_le_left _ _
  unfold tryTake
  dsimp only
  split
  · rename_i hle
    exact ⟨by linarith, by linarith⟩
  · exact ⟨h0, hc⟩

/-- The bucket bounds are preserved along any sequence of calls with
non-negative elapsed times and costs. -/
theorem runTryTakes_inv (calls : List (ℚ × ℚ)) :
    ∀ b : TokenBucket, 0 < b.refillInterval → bucketInv b →
      (∀ p ∈ calls, 0 ≤ p.1 ∧ 0 ≤ p.2) → bucketInv (runTryTakes b calls) := by
  induction calls with
  | nil => intro b _ hinv _; exact hinv
  | cons p rest ih =>
    intro b hri hinv hall
    obtain ⟨helapsed, hcost⟩ := hall p (List.mem_cons_self p rest)
    rcases p with ⟨elapsed, cost⟩
    unfold runTryTakes
    apply ih
    · rw [tryTake_refillInterval]; exact hri
    · exact tryTake_inv b _ _ hri hinv (by linarith) hcost
    · exact fun q hq => hall q (List.mem_cons_of_mem _ hq)

/-- C2: after every call of any `TryTake` sequence with non-negative elapsed
times and costs, a bucket constructed with positive interval and capacity
satisfies `0 ≤ tokens ≤ capacity`. -/
theorem bucket_bounds (refillInterval capacity initialTokens : ℚ)
    (calls pre suf : List (ℚ × ℚ))
    (hri : 0 < refillInterval) (hcap : 0 < capacity)
    (hcalls : ∀ p ∈ calls, 0 ≤ p.1 ∧ 0 ≤ p.2)
    (hsplit : calls = pre ++ suf) :
    bucketInv (runTryTakes
      (NewTokenBucketRateLimiter refillInterval capacity initialTokens) pre) := by
  apply runTryTakes_inv
  · exact hri
  · constructor
    · exact le_max_left 0 _
    · exact max_le (le_of_lt hcap) (min_le_left _ _)
  · intro p hp
    exact hcalls p (hsplit ▸ List.mem_append_left suf hp)

/-- Witness for C2: a concrete bucket (rate 25/s in nanoseconds, capacity
10) over a two-call sequence, observed after its first call. -/
theorem bucket_bounds_witness :
    bucketInv (runTryTakes (NewTokenBucketRateLimiter 40000000 10 1) [(0, 1)]) :=
  bucket_bounds 40000000 10 1 [(0, 1), (50000000, 1)] [(0, 1)] [(50000000, 1)]
    (by norm_num) (by norm_num)
    (by
      intro p hp
      rcases List.mem_cons.mp hp with h | h
      · rw [h]; constructor <;> norm_num
      · rw [List.mem_singleton.mp h]; constructor <;> norm_num)
    rfl

/-! ## C5: startup validation of rate and capacity -/

/-- A startup environment in which every external step succeeds. -/
def okEnv : ServeEnv :=
  { tracerResult := .ok ()
    poolResult := fun _ => .ok ⟨1⟩
    keyPairResult := fun _ _ => .ok ⟨2⟩
    gatewayResult := .ok () }

/-- A startup environment whose key-pair parsing fails. -/
def failKeyEnv : ServeEnv :=
  { okEnv with keyPairResult := fun _ _ => .error ("bad pair") }

/-- A cleartext server configured with a negative (non-positive) rate. -/
def negRateServer : Server :=
  { listener := ⟨"127.0.0.1:9091"⟩
    serverName := serverDefaultName
    logger := zapGlobalLogger
    secureCfg := ⟨false, "", ""⟩
    capacity := 10
    rate := -1 }

/-- A cleartext server configured with a zero rate. -/
def zeroRateServer : Server :=
  { negRateServer with rate := 0 }

/-- A TLS-enabled server with the default rate and capacity. -/
def tlsServer : Server :=
  { negRateServer with rate := 25
                       secureCfg := ⟨true, "server.pem", "server.key"⟩ }

/-- Counterexample to C5: with rate `-1` (non-positive) startup succeeds and
the accept loop starts — no configuration error is returned; with rate `0`
the refill-interval division panics, which is likewise not an error returned
to the caller. -/
theorem startup_no_rate_validation_counterexample :
    negRateServer.rate ≤ 0 ∧
    (goServe okEnv negRateServer).1.isOk = true ∧
    ServeEvent.acceptLoop false ∈ (goServe okEnv negRateServer).2 ∧
    zeroRateServer.rate ≤ 0 ∧
    (goServe okEnv zeroRateServer).1 =
      .runtimeFault ("runtime error: integer divide by zero") ∧
    (goServe okEnv zeroRateServer).1.isGoError = false := by
  refine ⟨by decide, rfl, ?_, by decide, rfl, rfl⟩
  exact List.mem_singleton.mpr rfl

/-- C5 amended: startup performs no rate or capacity validation.  In
cleartext mode with successful external steps, any non-zero rate (and any
capacity whatsoever) starts the server; a zero rate panics with a division by
zero instead of returning a configuration error. -/
theorem startup_no_rate_validation (env : ServeEnv) (s : Server)
    (htr : env.tracerResult = .ok ()) (hgw : env.gatewayResult = .ok ())
    (hsec : s.secureCfg.secure = false) :
    (s.rate = 0 → (goServe env s).1 =
      .runtimeFault ("runtime error: integer divide by zero")) ∧
    (s.rate ≠ 0 → (goServe env s).1.isOk = true) := by
  constructor
  · intro h0
    simp [goServe, createHTTPServer, createGRPCOptions, htr, h0]
  · intro hne
    simp [goServe, createHTTPServer, createGRPCOptions, createDialOpts,
      createTLSConfig, htr, hgw, hsec, hne, GoResult.isOk]

/-- Witness for the amended C5: concrete servers with rate `-1` and rate `0`
and capacity `10`. -/
theorem startup_no_rate_validation_witness :
    ((goServe okEnv negRateServer).1.isOk = true) ∧
    ((goServe okEnv zeroRateServer).1 =
      .runtimeFault ("runtime error: integer divide by zero")) :=
  ⟨(startup_no_rate_validation okEnv negRateServer rfl rfl rfl).2 (by decide),
   (startup_no_rate_validation okEnv zeroRateServer rfl rfl rfl).1 rfl⟩

/-! ## C6: TLS key pair loaded once, synchronously, before serving -/

/-- C6: with TLS enabled, a key-pair parse failure makes `Serve` return an
error and the accept loop never starts; on success the key pair is loaded
exactly once, strictly before the accept loop event, and the TLS
configuration holds exactly that pair. -/
theorem tls_loaded_once_before_serving (env : ServeEnv) (s : Server)
    (hsec : s.secureCfg.secure = true) :
    ((∃ e, env.keyPairResult s.secureCfg.certFile s.secureCfg.keyFile = .error e) →
      (goServe env s).1.isOk = false ∧
      ∀ b, ServeEvent.acceptLoop b ∉ (goServe env s).2) ∧
    (∀ out tr, goServe env s = (.ok out, tr) →
      ∃ tr0, tr = tr0 ++ [ServeEvent.acceptLoop true] ∧
        tr0.count (ServeEvent.loadKeyPair s.secureCfg.certFile s.secureCfg.keyFile) = 1 ∧
        ∃ kp, env.keyPairResult s.secureCfg.certFile s.secureCfg.keyFile = .ok kp ∧
          out.server.tlsConfig = some ⟨kp⟩) := by
  cases htrc : env.tracerResult with
  | error e0 =>
    have hval : goServe env s = (.goError ("initializing global tracer: " ++ e0), []) := by
      simp [goServe, htrc]
    rw [hval]
    exact ⟨fun _ => ⟨rfl, by intro b; simp⟩, fun out tr h => by simp at h⟩
  | ok u =>
    by_cases hrate : s.rate = 0
    · have hval : goServe env s =
          (.runtimeFault ("runtime error: integer divide by zero"), []) := by
        simp [goServe, createHTTPServer, createGRPCOptions, htrc, hrate]
      rw [hval]
      exact ⟨fun _ => ⟨rfl, by intro b; simp⟩, fun out tr h => by simp at h⟩
    · cases hpool : env.poolResult s.secureCfg.certFile with
      | error ep =>
        have hval : goServe env s = (.goError ep, [.readCertPool s.secureCfg.certFile]) := by
          simp [goServe, createHTTPServer, createGRPCOptions, htrc, hrate, hsec, hpool]
        rw [hval]
        exact ⟨fun _ => ⟨rfl, by intro b; simp⟩, fun out tr h => by simp at h⟩
      | ok pool =>
        cases hgw : env.gatewayResult with
        | error eg =>
          have hval : goServe env s = (.goError ("unable to register gRPC gateway: " ++ eg),
              [.readCertPool s.secureCfg.certFile, .readCertPool s.secureCfg.certFile]) := by
            simp [goServe, createHTTPServer, createGRPCOptions, createDialOpts, htrc,
              hrate, hsec, hpool, hgw]
          rw [hval]
          exact ⟨fun _ => ⟨rfl, by intro b; simp⟩, fun out tr h => by simp at h⟩
        | ok u2 =>
          cases hkp : env.keyPairResult s.secureCfg.certFile s.secureCfg.keyFile with
          | error ek =>
            have hval : goServe env s =
                (.goError ("unable to create x509 key pair certificate: " ++ ek),
                  [.readCertPool s.secureCfg.certFile, .readCertPool s.secureCfg.certFile,
                   .loadKeyPair s.secureCfg.certFile s.secureCfg.keyFile]) := by
              simp [goServe, createHTTPServer, createGRPCOptions, createDialOpts,
                createTLSConfig, htrc, hrate, hsec, hpool, hgw, hkp]
            rw [hval]
            refine ⟨fun _ => ⟨rfl, by intro b; simp⟩, fun out tr h => by simp at h⟩
          | ok kp =>
            have hval : goServe env s =
                (.ok ⟨⟨s.listener.addr,
                    createServerMainHandler true .grpcServer .restMux, some ⟨kp⟩,
                    [.unaryInterceptorChain
                      (NewTokenBucketRateLimiter ((Int.tdiv timeSecondNs s.rate : Int) : ℚ)
                        (s.capacity : ℚ) 1) ((timeMicrosecondNs : Int) : ℚ),
                     .creds pool]⟩, true⟩,
                  [.readCertPool s.secureCfg.certFile, .readCertPool s.secureCfg.certFile,
                   .loadKeyPair s.secureCfg.certFile s.secureCfg.keyFile,
                   .acceptLoop true]) := by
              simp [goServe, createHTTPServer, createGRPCOptions, createDialOpts,
                createTLSConfig, htrc, hrate, hsec, hpool, hgw, hkp]
            rw [hval]
            constructor
            · rintro ⟨e, he⟩
              exact absurd he (by simp)
            · intro out tr h
              simp only [Prod.mk.injEq, GoResult.ok.injEq] at h
              obtain ⟨hout, htr2⟩ := h
              refine ⟨[.readCertPool s.secureCfg.certFile, .readCertPool s.secureCfg.certFile,
                .loadKeyPair s.secureCfg.certFile s.secureCfg.keyFile], ?_, ?_, kp, rfl, ?_⟩
              · rw [← htr2]; rfl
              · simp [List.count_cons]
              · rw [← hout]

/-- Witness for C6: a concrete TLS server whose key pair fails to parse never
reaches the accept loop and returns an error. -/
theorem tls_loaded_once_before_serving_witness :
    (goServe failKeyEnv tlsServer).1.isOk = false ∧
    ServeEvent.acceptLoop true ∉ (goServe failKeyEnv tlsServer).2 :=
  ⟨((tls_loaded_once_before_serving failKeyEnv tlsServer rfl).1 ⟨"bad pair", rfl⟩).1,
   ((tls_loaded_once_before_serving failKeyEnv tlsServer rfl).1 ⟨"bad pair", rfl⟩).2 true⟩
